import Mathlib

/-!
Shallow embedding of the `bed-to-bedgraph` program (`src/main.rs`).

The program streams a tab-delimited BED-like file, extracts one numeric value
per record (from the `score` field or from a 0-based index into the fields
after the score column) and writes bedGraph lines behind a fixed header.

Modelling conventions:
* Rust `u32` is `Nat` together with an explicit `< 2 ^ 32` bound at parse time;
  `i32` casts are made explicit (`i32OfNat`, `usizeOfI32`, 64-bit `usize`).
* Rust `f64` is modelled exactly by `F64`, a normalized decimal
  `mantissa * 10 ^ (-exponent)`.  Every float literal exercised by the claims
  (`5.0`, `7.5`, `9.0`, `0.0`) is exactly representable in `f64` and short
  enough that Rust's shortest-round-trip `Display` coincides with the exact
  decimal rendering computed here; `inf`/`nan` spellings and rounding of
  decimals beyond `f64` precision are not modelled.
* Rust panics (`expect`, out-of-bounds indexing) are modelled by
  `Except RunError` / an explicit failure field; `BufWriter` flushes its buffer
  on drop even while unwinding, so output written before a panic is kept.
-/

/-- Rust `char::is_whitespace` (Unicode `White_Space`), restricted to the ASCII
whitespace characters; the non-ASCII `White_Space` code points are not
exercised by this development. -/
def isRustWhitespace (c : Char) : Bool :=
  c = ' ' || c = '\t' || c = '\n' || c = '\r' || c = '\x0b' || c = '\x0c'

/-- Rust `str::trim` on the character list: drop whitespace from both ends. -/
def rustTrimList (l : List Char) : List Char :=
  ((l.dropWhile isRustWhitespace).reverse.dropWhile isRustWhitespace).reverse

/-- Rust `str::trim`. -/
def rustTrim (s : String) : String := ⟨rustTrimList s.data⟩

/-- Rust `str::split('\t')`: always at least one chunk, empty chunks kept. -/
def splitTabList : List Char → List (List Char)
  | [] => [[]]
  | c :: rest =>
    if c = '\t' then [] :: splitTabList rest
    else
      match splitTabList rest with
      | [] => [[c]]
      | f :: fs => (c :: f) :: fs

/-- `line.trim().split('\t').collect()` from `<BedParser as Iterator>::next`. -/
def lineFields (line : String) : List String :=
  (splitTabList (rustTrimList line.data)).map fun l => ⟨l⟩

/-- Numeric value of an ASCII digit. -/
def digitVal (c : Char) : Nat := c.toNat - 48

/-- ASCII digit test. -/
def isAsciiDigit (c : Char) : Bool := '0' ≤ c && c ≤ '9'

/-- Decimal value of a digit string. -/
def digitsToNat (l : List Char) : Nat := l.foldl (fun acc c => acc * 10 + digitVal c) 0

/-- A non-empty all-digit chunk, as required by Rust's integer parsers. -/
def parseNatDigits (l : List Char) : Option Nat :=
  if !l.isEmpty && l.all isAsciiDigit then some (digitsToNat l) else none

/-- Rust `str::parse::<u32>`: optional leading `+`, digits, range-checked. -/
def parse_u32 (s : String) : Option Nat :=
  let l :=
    match s.data with
    | '+' :: rest => rest
    | l => l
  match parseNatDigits l with
  | some n => if n < 2 ^ 32 then some n else none
  | none => none

/-- Rust `str::parse::<i32>`: optional sign, digits, range-checked. -/
def parse_i32 (s : String) : Option Int :=
  match s.data with
  | '+' :: rest =>
    (parseNatDigits rest).bind fun n =>
      if (n : Int) ≤ 2 ^ 31 - 1 then some (n : Int) else none
  | '-' :: rest =>
    (parseNatDigits rest).bind fun n =>
      if (n : Int) ≤ 2 ^ 31 then some (-(n : Int)) else none
  | l =>
    (parseNatDigits l).bind fun n =>
      if (n : Int) ≤ 2 ^ 31 - 1 then some (n : Int) else none

/-- Exact model of a finite `f64` value as a normalized decimal
`m * 10 ^ (-e)`: after normalization either `e = 0` or `10` does not divide
`m`, so each value has one representation and structural equality is value
equality. -/
structure F64 where
  m : Int
  e : Nat
deriving DecidableEq

/-- Normalize a decimal `m * 10 ^ (-e)` by cancelling factors of ten. -/
def normDec : Nat → Int → F64
  | 0, m => ⟨m, 0⟩
  | e + 1, m => if m % 10 = 0 then normDec e (m / 10) else ⟨m, e + 1⟩

/-- Split a character list at the first character satisfying `p`. -/
def splitOnceP (p : Char → Bool) : List Char → Option (List Char × List Char)
  | [] => none
  | c :: rest =>
    if p c then some ([], rest)
    else (splitOnceP p rest).map fun pr => (c :: pr.1, pr.2)

/-- Mantissa of a float literal (digits with at most one dot, at least one
digit overall), as an unnormalized decimal `m * 10 ^ (-e)`. -/
def parseMantissaRaw (l : List Char) : Option (Int × Nat) :=
  match splitOnceP (fun c => c = '.') l with
  | none => (parseNatDigits l).map fun n => ((n : Int), 0)
  | some (ip, fp) =>
    if (!ip.isEmpty || !fp.isEmpty) && ip.all isAsciiDigit && fp.all isAsciiDigit then
      some ((digitsToNat (ip ++ fp) : Int), fp.length)
    else none

/-- Exponent part of a float literal: optional sign then digits. -/
def parseExpPart (l : List Char) : Option Int :=
  match l with
  | '+' :: rest => (parseNatDigits rest).map fun n => (n : Int)
  | '-' :: rest => (parseNatDigits rest).map fun n => -(n : Int)
  | l => (parseNatDigits l).map fun n => (n : Int)

/-- Rust `str::parse::<f64>` over exact decimals: optional sign, decimal
mantissa, optional `e`/`E` exponent.  The `inf`/`infinity`/`nan` spellings
have no exact-decimal counterpart and are not modelled. -/
def parse_f64 (s : String) : Option F64 :=
  let signed : Bool × List Char :=
    match s.data with
    | '-' :: rest => (true, rest)
    | '+' :: rest => (false, rest)
    | l => (false, l)
  let core : Option (Int × Nat) :=
    match splitOnceP (fun c => c = 'e' || c = 'E') signed.2 with
    | none => parseMantissaRaw signed.2
    | some (mp, ep) =>
      (parseMantissaRaw mp).bind fun mv =>
        (parseExpPart ep).map fun ev =>
          if 0 ≤ ev then (mv.1 * (10 : Int) ^ ev.toNat, mv.2)
          else (mv.1, mv.2 + (-ev).toNat)
  core.map fun p => normDec p.2 (if signed.1 then -p.1 else p.1)

/-- Fractional decimal digits of `r / d` by repeated multiplication, stopping
at remainder zero. -/
def fracDigits : Nat → Nat → Nat → List Char
  | 0, _, _ => []
  | fuel + 1, r, d =>
    if r = 0 then []
    else Char.ofNat (48 + r * 10 / d) :: fracDigits fuel (r * 10 % d) d

/-- Rust `{}` `Display` for `f64`, on the exact-decimal model: sign, integer
part, and the fractional digits when they are non-zero.  For the short
exactly-representable decimals exercised here this coincides with Rust's
shortest-round-trip rendering (`5.0` prints as `5`, `7.5` as `7.5`). -/
def formatF64 (x : F64) : String :=
  let sign := if x.m < 0 then "-" else ""
  let a := x.m.natAbs
  let d := 10 ^ x.e
  let fr := fracDigits x.e (a % d) d
  if fr.isEmpty then sign ++ toString (a / d)
  else sign ++ toString (a / d) ++ "." ++ String.mk fr

/-- The two panic shapes of the program: an unchecked slice index and an
`expect` with its message. -/
inductive RunError where
  | indexOutOfBounds (i : Nat)
  | expectFailed (msg : String)
deriving DecidableEq

/-- `struct BedRecord` from `src/main.rs`. -/
structure BedRecord where
  chrom : String
  start : Nat
  end_ : Nat
  name : String
  score : F64
  values : List String
deriving DecidableEq

/-- `struct BedGraphRecord` from `src/main.rs`. -/
structure BedGraphRecord where
  chrom : String
  start : Nat
  end_ : Nat
  value : F64
deriving DecidableEq

/-- Field extraction and parsing order of `<BedParser as Iterator>::next`
(lines 59-73): each `fields[i]` is an unchecked index, `start`/`end` parse
with `expect`, `score` parses with `unwrap_or(0.0)`, `values` is the
`fields[5..]` tail (reachable only when `fields[4]` existed). -/
def parseBedFields (fields : List String) : Except RunError BedRecord :=
  match fields.get? 0 with
  | none => .error (.indexOutOfBounds 0)
  | some chrom =>
    match fields.get? 1 with
    | none => .error (.indexOutOfBounds 1)
    | some s1 =>
      match parse_u32 s1 with
      | none => .error (.expectFailed "Could not parse start")
      | some start =>
        match fields.get? 2 with
        | none => .error (.indexOutOfBounds 2)
        | some s2 =>
          match parse_u32 s2 with
          | none => .error (.expectFailed "Could not parse end")
          | some endv =>
            match fields.get? 3 with
            | none => .error (.indexOutOfBounds 3)
            | some name =>
              match fields.get? 4 with
              | none => .error (.indexOutOfBounds 4)
              | some s4 =>
                .ok ⟨chrom, start, endv, name, (parse_f64 s4).getD ⟨0, 0⟩, fields.drop 5⟩

/-- One `next()` call on a non-empty line: trim, tab-split, parse. -/
def parseBedLine (line : String) : Except RunError BedRecord :=
  parseBedFields (lineFields line)

/-- Rust `index_to_parse as usize` on a 64-bit target: two's-complement wrap. -/
def usizeOfI32 (i : Int) : Nat := (i % (2 : Int) ^ 64).toNat

/-- Rust `record.values.len() as i32`: truncate to 32 bits, reinterpret signed. -/
def i32OfNat (n : Nat) : Int :=
  let m : Int := (n : Int) % 2 ^ 32
  if m < 2 ^ 31 then m else m - 2 ^ 32

/-- The first-record guard of `main` (line 136):
`index_to_parse > 0 && index_to_parse >= record.values.len() as i32`. -/
def outOfRange (idx : Int) (r : BedRecord) : Bool :=
  decide (0 < idx) && decide (i32OfNat r.values.length ≤ idx)

/-- Value selection of `main` (lines 145-150): `-1` means the score field,
anything else indexes `record.values` after an `as usize` cast, with an
`expect`-panicking float parse. -/
def selectValue (idx : Int) (r : BedRecord) : Except RunError F64 :=
  if idx = -1 then .ok r.score
  else
    match r.values.get? (usizeOfI32 idx) with
    | none => .error (.indexOutOfBounds (usizeOfI32 idx))
    | some s =>
      match parse_f64 s with
      | some v => .ok v
      | none => .error (.expectFailed "Could not parse value")

/-- Construction of `BedGraphRecord` in `main` (lines 151-156). -/
def mkBedGraphRecord (r : BedRecord) (v : F64) : BedGraphRecord :=
  { chrom := r.chrom, start := r.start, end_ := r.end_, value := v }

/-- `BedGraphWriter::write`: `writeln!("{}\t{}\t{}\t{}", ...)`. -/
def writeLine (g : BedGraphRecord) : String :=
  g.chrom ++ "\t" ++ toString g.start ++ "\t" ++ toString g.end_ ++ "\t"
    ++ formatF64 g.value ++ "\n"

/-- The `eprintln!` diagnostic of `main` (lines 137-140). -/
def diagMsg (idx : Int) : String :=
  "Could not find column index " ++ toString idx ++
    " in record. Remember that the index is 0-based and the first value is after the score column"

/-- Outcome of one iteration of the record loop for one line. -/
inductive StepOutcome where
  | fail (e : RunError)
  | diag
  | emit (g : BedGraphRecord)
deriving DecidableEq

/-- One iteration of the `for record in parser` loop of `main`, on the field
list of the current line: parse the record, run the first-record range guard,
select the value, build the output record. -/
def stepFields (idx : Int) (firstDone : Bool) (fields : List String) : StepOutcome :=
  match parseBedFields fields with
  | .error e => .fail e
  | .ok r =>
    if !firstDone && outOfRange idx r then .diag
    else
      match selectValue idx r with
      | .error e => .fail e
      | .ok v => .emit (mkBedGraphRecord r v)

/-- Everything observable from a run: bytes written to the output sink,
`eprintln` diagnostics, and the panic that aborted the run, if any. -/
structure RunResult where
  output : String
  stderr : List String
  failure : Option RunError
deriving DecidableEq

/-- The record loop of `main` (lines 132-162), threading the
`has_parsed_first_line` flag; a diagnostic breaks the loop, a panic aborts
the run keeping the output flushed so far. -/
def runLoop (idx : Int) : Bool → List String → RunResult
  | _, [] => ⟨"", [], none⟩
  | firstDone, l :: rest =>
    match stepFields idx firstDone (lineFields l) with
    | .fail e => ⟨"", [], some e⟩
    | .diag => ⟨"", [diagMsg idx], none⟩
    | .emit g =>
      let tail := runLoop idx true rest
      ⟨writeLine g ++ tail.output, tail.stderr, tail.failure⟩

/-- Resolution of the `--value-column` token in `main` (lines 124-130):
`"score"` maps to the sentinel `-1`, anything else is parsed as `i32` with an
`expect`. -/
def resolveIndex (token : String) : Except RunError Int :=
  if token = "score" then .ok (-1)
  else
    match parse_i32 token with
    | some i => .ok i
    | none => .error (.expectFailed "Could not parse column index")

/-- `BufReader::read_line` chunks of a file: each chunk keeps its `\n`, a last
chunk without a terminator is still returned, and end of file yields the empty
read that stops the iterator. -/
def splitLinesAux : List Char → List Char → List String
  | [], [] => []
  | [], acc => [⟨acc.reverse⟩]
  | c :: rest, acc =>
    if c = '\n' then (⟨(c :: acc).reverse⟩ : String) :: splitLinesAux rest []
    else splitLinesAux rest (c :: acc)

/-- All `read_line` results for a file content. -/
def splitLines (s : String) : List String := splitLinesAux s.data []

/-- A whole run of `main` on a file content and a `--value-column` token:
the writer emits its header on construction, then the token is resolved
(a bad token panics after the header is already written), then the record
loop runs. -/
def runProgram (content : String) (token : String) : RunResult :=
  let lr : RunResult :=
    match resolveIndex token with
    | .error e => ⟨"", [], some e⟩
    | .ok idx => runLoop idx false (splitLines content)
  ⟨"track type=bedGraph\n" ++ lr.output, lr.stderr, lr.failure⟩

/-- The output line contributed by one input line when it is fully processed
(empty when processing fails); used to state run-level output shape. -/
def emittedLine (idx : Int) (l : String) : String :=
  match parseBedLine l with
  | .error _ => ""
  | .ok r =>
    match selectValue idx r with
    | .error _ => ""
    | .ok v => writeLine (mkBedGraphRecord r v)

/-- Concatenation of output lines. -/
def concatLines : List String → String
  | [] => ""
  | l :: ls => l ++ concatLines ls

/-! ### Helper lemmas -/

deriving instance DecidableEq for Except

lemma runLoop_cons (idx : Int) (fd : Bool) (l : String) (ls : List String) :
    runLoop idx fd (l :: ls) =
      match stepFields idx fd (lineFields l) with
      | .fail e => ⟨"", [], some e⟩
      | .diag => ⟨"", [diagMsg idx], none⟩
      | .emit g =>
        ⟨writeLine g ++ (runLoop idx true ls).output,
          (runLoop idx true ls).stderr, (runLoop idx true ls).failure⟩ := rfl

lemma runLoop_nil (idx : Int) (fd : Bool) : runLoop idx fd [] = ⟨"", [], none⟩ := rfl

lemma parseBedFields_ok {fields : List String} {r : BedRecord}
    (h : parseBedFields fields = Except.ok r) :
    ∃ s1 s2 s4,
      fields.get? 0 = some r.chrom ∧
      fields.get? 1 = some s1 ∧ parse_u32 s1 = some r.start ∧
      fields.get? 2 = some s2 ∧ parse_u32 s2 = some r.end_ ∧
      fields.get? 3 = some r.name ∧
      fields.get? 4 = some s4 ∧ r.score = (parse_f64 s4).getD ⟨0, 0⟩ ∧
      r.values = fields.drop 5 := by
  unfold parseBedFields at h
  repeat' first
    | exact Except.noConfusion h
    | split at h
  injection h with h
  subst h
  exact ⟨_, _, _, by assumption, by assumption, by assumption, by assumption,
    by assumption, by assumption, by assumption, rfl, rfl⟩

lemma parseBedFields_ok_length {fields : List String} {r : BedRecord}
    (h : parseBedFields fields = Except.ok r) : 5 ≤ fields.length := by
  obtain ⟨_, _, _, -, -, -, -, -, -, h4, -, -⟩ := parseBedFields_ok h
  obtain ⟨hlt, -⟩ := List.get?_eq_some.mp h4
  exact hlt

lemma stepFields_emit (idx : Int) (fd : Bool) {fields : List String} {r : BedRecord} {v : F64}
    (hp : parseBedFields fields = Except.ok r)
    (ho : outOfRange idx r = false)
    (hs : selectValue idx r = Except.ok v) :
    stepFields idx fd fields = .emit (mkBedGraphRecord r v) := by
  simp [stepFields, hp, ho, hs]

/-! ### C1 -/

/-- Claim C1, counterexample to the claim as stated.  The selector token `"0"`
parses to the non-negative index `0`, and the first (only) record of the file
has no value fields, so `0 ≥ length(values)`; the claim predicts an
out-of-range diagnostic, but the run prints nothing to stderr and instead
aborts with the unchecked index panic from `record.values[0]`. -/
theorem c1_counterexample :
    runProgram "c\t1\t2\tn\t5\n" "0" =
      ⟨"track type=bedGraph\n", [], some (RunError.indexOutOfBounds 0)⟩ := by decide

/-- Claim C1 (amended): the first-record guard fires only for strictly
positive indices.  For every run whose first record parses, if the index is
positive and at least the number of value fields (as the code's `i32` cast
computes it), the loop prints the diagnostic naming the index and halts
before emitting that record's output line. -/
theorem c1_out_of_range_diag (idx : Int) (l : String) (rest : List String) (r : BedRecord)
    (hp : parseBedLine l = Except.ok r)
    (hpos : 0 < idx)
    (hge : i32OfNat r.values.length ≤ idx) :
    runLoop idx false (l :: rest) = ⟨"", [diagMsg idx], none⟩ := by
  have ho : outOfRange idx r = true := by
    unfold outOfRange
    rw [decide_eq_true hpos, decide_eq_true hge]
    rfl
  have hstep : stepFields idx false (lineFields l) = .diag := by
    simp [stepFields, show parseBedFields (lineFields l) = Except.ok r from hp, ho]
  rw [runLoop_cons, hstep]

/-- Witness for C1's amended theorem: selector index `2` against a first
record with a single value field triggers the diagnostic and emits nothing. -/
theorem c1_out_of_range_diag_witness :
    runLoop 2 false ["c\t1\t2\tn\t5\t7\n"] = ⟨"", [diagMsg 2], none⟩ :=
  c1_out_of_range_diag 2 "c\t1\t2\tn\t5\t7\n" [] ⟨"c", 1, 2, "n", ⟨5, 0⟩, ["7"]⟩
    (by decide) (by decide) (by decide)

/-! ### C2 -/

/-- Claim C2, counterexample to the claim as stated.  A line with only three
tab-separated fields does not fail with any named `MalformedRecordError`
(no such error exists in the program); it aborts with the unchecked
out-of-bounds index panic at `fields[3]`. -/
theorem c2_counterexample :
    parseBedLine "chrom1\t10\t20\n" = Except.error (RunError.indexOutOfBounds 3) := by decide

/-- Claim C2 (amended): every input line with fewer than 5 tab-separated
fields fails to parse — with an unchecked panic (an out-of-bounds index
fault at the first missing field, or a coordinate-parse `expect` if one of
the present fields is non-numeric first), never with a named
`MalformedRecordError`, which the program does not have. -/
theorem c2_short_line_fails (line : String)
    (h : (lineFields line).length < 5) :
    ∃ e, parseBedLine line = Except.error e := by
  cases hp : parseBedFields (lineFields line) with
  | error e => exact ⟨e, hp⟩
  | ok r => exact absurd (parseBedFields_ok_length hp) (by omega)

/-- Witness for C2's amended theorem: a 3-field line fails to parse, and the
failure is precisely the index fault at position 3. -/
theorem c2_short_line_fails_witness :
    (lineFields "chrom1\t10\t20\n").length < 5 ∧
      (∃ e, parseBedLine "chrom1\t10\t20\n" = Except.error e) ∧
      parseBedLine "chrom1\t10\t20\n" = Except.error (RunError.indexOutOfBounds 3) :=
  ⟨by decide, c2_short_line_fails "chrom1\t10\t20\n" (by decide), by decide⟩

/-! ### C3 -/

/-- Claim C3: when the fifth tab-separated field of a line does not parse as a
float, the parsed record's score silently defaults to `0.0` (the decimal
`⟨0, 0⟩`) and, under the `"score"` selector (sentinel `-1`), the record is
still emitted — with output value `0.0` — rather than aborting the run. -/
theorem c3_bad_score_defaults (l : String) (r : BedRecord) (s4 : String)
    (hp : parseBedLine l = Except.ok r)
    (h4 : (lineFields l).get? 4 = some s4)
    (hf : parse_f64 s4 = none) :
    r.score = ⟨0, 0⟩ ∧
      ∀ fd, stepFields (-1) fd (lineFields l) = .emit ⟨r.chrom, r.start, r.end_, ⟨0, 0⟩⟩ := by
  obtain ⟨s1, s2, s4', -, -, -, -, -, -, h4', hsc, -⟩ := parseBedFields_ok hp
  have hs4 : s4' = s4 := by rw [h4'] at h4; exact (Option.some.injEq _ _).mp h4
  have hscore : r.score = ⟨0, 0⟩ := by rw [hsc, hs4, hf]; rfl
  refine ⟨hscore, fun fd => ?_⟩
  have ho : outOfRange (-1) r = false := by
    unfold outOfRange
    simp
  have hs : selectValue (-1) r = Except.ok ⟨0, 0⟩ := by
    unfold selectValue
    rw [if_pos rfl, hscore]
  have := stepFields_emit (-1) fd hp ho hs
  rw [this]
  rfl

/-- Witness for C3: the non-numeric score field `"bad"` yields score `0.0` and
an emitted output record with value `0.0`. -/
theorem c3_bad_score_defaults_witness :
    (⟨"c", 1, 2, "n", ⟨0, 0⟩, []⟩ : BedRecord).score = ⟨0, 0⟩ ∧
      stepFields (-1) false (lineFields "c\t1\t2\tn\tbad\n") = .emit ⟨"c", 1, 2, ⟨0, 0⟩⟩ :=
  ⟨(c3_bad_score_defaults "c\t1\t2\tn\tbad\n" ⟨"c", 1, 2, "n", ⟨0, 0⟩, []⟩ "bad"
      (by decide) (by decide) (by decide)).1,
    (c3_bad_score_defaults "c\t1\t2\tn\tbad\n" ⟨"c", 1, 2, "n", ⟨0, 0⟩, []⟩ "bad"
      (by decide) (by decide) (by decide)).2 false⟩

/-! ### C4 -/

/-- Claim C4: whenever a record produces an output line, the emitted bedGraph
record is built from the input record's own `chrom`, `start` and `end` — the
transformation only contributes the value field. -/
theorem c4_coordinates_pass_through (idx : Int) (l : String) (rest : List String)
    (r : BedRecord) (v : F64)
    (hp : parseBedLine l = Except.ok r)
    (ho : outOfRange idx r = false)
    (hs : selectValue idx r = Except.ok v) :
    ∀ fd, runLoop idx fd (l :: rest) =
      ⟨writeLine ⟨r.chrom, r.start, r.end_, v⟩ ++ (runLoop idx true rest).output,
        (runLoop idx true rest).stderr, (runLoop idx true rest).failure⟩ := by
  intro fd
  rw [runLoop_cons, stepFields_emit idx fd hp ho hs]
  rfl

/-- Witness for C4: a concrete record keeps `start = 1`, `end = 2` in its
output line. -/
theorem c4_coordinates_pass_through_witness :
    runLoop (-1) false ["c\t1\t2\tn\t5\n"] = ⟨"c\t1\t2\t5\n", [], none⟩ :=
  Eq.trans
    (c4_coordinates_pass_through (-1) "c\t1\t2\tn\t5\n" [] ⟨"c", 1, 2, "n", ⟨5, 0⟩, []⟩ ⟨5, 0⟩
      (by decide) (by decide) (by decide) false)
    (by decide)

/-! ### C5 -/

/-- Claim C5: every run writes the header line `track type=bedGraph` first —
the whole output is the header followed by whatever the record loop produced —
and with zero input records (and a resolvable selector token) the output is
exactly the header. -/
theorem c5_header_always_first (content token : String) :
    (∃ rest, (runProgram content token).output = "track type=bedGraph\n" ++ rest) ∧
    (∀ idx, resolveIndex token = Except.ok idx → splitLines content = [] →
      runProgram content token = ⟨"track type=bedGraph\n", [], none⟩) := by
  constructor
  · exact ⟨_, rfl⟩
  · intro idx hres hempty
    unfold runProgram
    rw [hres, hempty]
    show (⟨"track type=bedGraph\n" ++ (runLoop idx false []).output,
      (runLoop idx false []).stderr, (runLoop idx false []).failure⟩ : RunResult) = _
    rw [runLoop_nil]
    show (⟨"track type=bedGraph\n" ++ "", [], none⟩ : RunResult) = _
    rw [String.append_empty]

/-- Witness for C5: the empty file with the `"score"` selector produces the
bare header. -/
theorem c5_header_always_first_witness :
    (∃ rest, (runProgram "" "score").output = "track type=bedGraph\n" ++ rest) ∧
      runProgram "" "score" = ⟨"track type=bedGraph\n", [], none⟩ :=
  ⟨(c5_header_always_first "" "score").1,
    (c5_header_always_first "" "score").2 (-1) (by decide) (by decide)⟩

/-! ### C9 -/

/-- Claim C9: the token `"-1"` is accepted by the `i32` parse and maps to the
same sentinel `-1` that the `"score"` keyword maps to, so on every input file
the two runs are observably identical (same output, stderr, and failure). -/
theorem c9_minus_one_collides_with_score (content : String) :
    runProgram content "-1" = runProgram content "score" := by
  have h1 : resolveIndex "-1" = Except.ok (-1) := by decide
  have h2 : resolveIndex "score" = Except.ok (-1) := by decide
  unfold runProgram
  rw [h1, h2]

/-! ### C6 -/

/-- Claim C6: when every input line parses, passes the range guard and yields
a value, the run's body output is exactly one serialized line per input
record, in input order, each line being the tab-separated `chrom`, `start`,
`end` and default-rendered value (see `writeLine`/`formatF64`), with no
diagnostics and no panic. -/
theorem c6_one_line_per_record (idx : Int) (lines : List String)
    (h : ∀ l ∈ lines, ∃ r v, parseBedLine l = Except.ok r ∧
      selectValue idx r = Except.ok v ∧ outOfRange idx r = false) :
    ∀ firstDone, runLoop idx firstDone lines =
      ⟨concatLines (lines.map (emittedLine idx)), [], none⟩ := by
  induction lines with
  | nil => intro fd; rfl
  | cons l ls ih =>
    intro fd
    obtain ⟨r, v, hp, hs, ho⟩ := h l (List.mem_cons_self l ls)
    have hline : emittedLine idx l = writeLine (mkBedGraphRecord r v) := by
      simp only [emittedLine, parseBedLine] at *
      rw [hp]
      show (match selectValue idx r with
        | Except.error _ => ""
        | Except.ok v => writeLine (mkBedGraphRecord r v)) = _
      rw [hs]
    have ihh := ih (fun x hx => h x (List.mem_cons_of_mem l hx)) true
    rw [runLoop_cons, stepFields_emit idx fd hp ho hs, ihh, List.map_cons]
    show (⟨writeLine (mkBedGraphRecord r v) ++ concatLines (ls.map (emittedLine idx)),
      [], none⟩ : RunResult) = _
    rw [show concatLines (emittedLine idx l :: ls.map (emittedLine idx)) =
      emittedLine idx l ++ concatLines (ls.map (emittedLine idx)) from rfl, hline]

/-- Witness for C6: the `"score"` selector on `chrom1\t10\t20\tnameA\t5.0`
yields exactly the body line `chrom1\t10\t20\t5`. -/
theorem c6_one_line_per_record_witness :
    runLoop (-1) false ["chrom1\t10\t20\tnameA\t5.0\n"] =
      ⟨"chrom1\t10\t20\t5\n", [], none⟩ := by
  refine Eq.trans (c6_one_line_per_record (-1) ["chrom1\t10\t20\tnameA\t5.0\n"] ?_ false)
    (by decide)
  intro l hl
  have hl' : l = "chrom1\t10\t20\tnameA\t5.0\n" := by simpa using hl
  subst hl'
  exact ⟨⟨"chrom1", 10, 20, "nameA", ⟨5, 0⟩, []⟩, ⟨5, 0⟩, by decide, by decide, by decide⟩

/-! ### C7 -/

/-- Claim C7: for a non-negative in-range `i32` index, the selected value is
the float parse of `values[idx]` (the tab-separated fields after the score
column, 0-based), and a non-numeric text there is the fatal
`Could not parse value` panic. -/
theorem c7_index_selects_values_field (idx : Int) (r : BedRecord)
    (h0 : 0 ≤ idx) (h1 : idx < 2 ^ 31) (h2 : idx.toNat < r.values.length) :
    selectValue idx r =
      match parse_f64 (r.values.getD idx.toNat "") with
      | some v => Except.ok v
      | none => Except.error (.expectFailed "Could not parse value") := by
  have hu : usizeOfI32 idx = idx.toNat := by
    unfold usizeOfI32
    rw [Int.emod_eq_of_lt h0 (by omega)]
  have hg : r.values.get? idx.toNat = some (r.values.getD idx.toNat "") := by
    rw [List.get?_eq_get h2]
    rw [List.getD_eq_get? ]
    rw [List.get?_eq_get h2]
    rfl
  unfold selectValue
  rw [if_neg (by omega), hu, hg]

/-- Witness for C7: selector index `0` on the record parsed from
`chrom1\t10\t20\tnameA\t5.0\t7.5\t9.0` selects `7.5` (decimal `⟨75, 1⟩`), and
the full run prints `chrom1\t10\t20\t7.5`. -/
theorem c7_index_selects_values_field_witness :
    selectValue 0 ⟨"chrom1", 10, 20, "nameA", ⟨5, 0⟩, ["7.5", "9.0"]⟩ = Except.ok ⟨75, 1⟩ ∧
      runProgram "chrom1\t10\t20\tnameA\t5.0\t7.5\t9.0" "0" =
        ⟨"track type=bedGraph\nchrom1\t10\t20\t7.5\n", [], none⟩ :=
  ⟨Eq.trans
    (c7_index_selects_values_field 0 ⟨"chrom1", 10, 20, "nameA", ⟨5, 0⟩, ["7.5", "9.0"]⟩
      (by decide) (by decide) (by decide))
    (by decide), by decide⟩

/-! ### C10 -/

lemma parseBedFields_cons5 (c s e n x : String) (vs : List String) :
    parseBedFields (c :: s :: e :: n :: x :: vs) =
      match parse_u32 s with
      | none => .error (.expectFailed "Could not parse start")
      | some st =>
        match parse_u32 e with
        | none => .error (.expectFailed "Could not parse end")
        | some en => .ok ⟨c, st, en, n, (parse_f64 x).getD ⟨0, 0⟩, vs⟩ := rfl

lemma stepFields_cons5_ok (idx : Int) (fd : Bool) (c s e n x : String) (vs : List String)
    (st en : Nat) (hs : parse_u32 s = some st) (he : parse_u32 e = some en) :
    stepFields idx fd (c :: s :: e :: n :: x :: vs) =
      (if !fd && outOfRange idx ⟨c, st, en, n, (parse_f64 x).getD ⟨0, 0⟩, vs⟩ then .diag
      else
        match selectValue idx ⟨c, st, en, n, (parse_f64 x).getD ⟨0, 0⟩, vs⟩ with
        | .error e2 => .fail e2
        | .ok v => .emit (mkBedGraphRecord ⟨c, st, en, n, (parse_f64 x).getD ⟨0, 0⟩, vs⟩ v)) := by
  unfold stepFields
  rw [parseBedFields_cons5, hs, he]

/-- Claim C10: under a non-negative index selector the processing outcome of a
line is independent of its fifth tab-separated field (the score column): two
field lists that differ only there produce identical step outcomes — the same
output record, the same diagnostic, or the same panic. -/
theorem c10_score_noninterference (idx : Int) (fd : Bool)
    (c s e n x y : String) (vs : List String) (h : 0 ≤ idx) :
    stepFields idx fd (c :: s :: e :: n :: x :: vs) =
      stepFields idx fd (c :: s :: e :: n :: y :: vs) := by
  have hne : idx ≠ -1 := by omega
  cases hs : parse_u32 s with
  | none =>
    unfold stepFields
    rw [parseBedFields_cons5, parseBedFields_cons5, hs]
  | some st =>
    cases he : parse_u32 e with
    | none =>
      unfold stepFields
      rw [parseBedFields_cons5, parseBedFields_cons5, hs, he]
    | some en =>
      rw [stepFields_cons5_ok idx fd c s e n x vs st en hs he,
        stepFields_cons5_ok idx fd c s e n y vs st en hs he]
      have hsel : selectValue idx (⟨c, st, en, n, (parse_f64 x).getD ⟨0, 0⟩, vs⟩ : BedRecord) =
          selectValue idx ⟨c, st, en, n, (parse_f64 y).getD ⟨0, 0⟩, vs⟩ := by
        unfold selectValue
        rw [if_neg hne, if_neg hne]
      have hor : outOfRange idx (⟨c, st, en, n, (parse_f64 x).getD ⟨0, 0⟩, vs⟩ : BedRecord) =
          outOfRange idx ⟨c, st, en, n, (parse_f64 y).getD ⟨0, 0⟩, vs⟩ := rfl
      rw [hsel, hor]
      cases hb : (!fd && outOfRange idx (⟨c, st, en, n, (parse_f64 y).getD ⟨0, 0⟩, vs⟩ : BedRecord)) with
      | true => rfl
      | false =>
        cases hsv : selectValue idx (⟨c, st, en, n, (parse_f64 y).getD ⟨0, 0⟩, vs⟩ : BedRecord) with
        | error e2 => rfl
        | ok v => rfl

/-- Witness for C10: with index `0`, replacing the score field `"5"` by the
non-numeric `"bad"` leaves the step outcome unchanged. -/
theorem c10_score_noninterference_witness :
    stepFields 0 false ["c", "1", "2", "n", "5", "7"] =
      stepFields 0 false ["c", "1", "2", "n", "bad", "7"] :=
  c10_score_noninterference 0 false "c" "1" "2" "n" "5" "bad" ["7"] (by decide)

/-! ### C8 -/

lemma rustTrimList_append_ws (l : List Char) (c : Char)
    (hc : isRustWhitespace c = true) :
    rustTrimList (l ++ [c]) = rustTrimList l := by
  unfold rustTrimList
  rw [List.dropWhile_append]
  cases hd : l.dropWhile isRustWhitespace with
  | nil => simp [List.dropWhile_cons, hc]
  | cons a t => simp [List.reverse_append, List.dropWhile_cons, hc]

lemma lineFields_append_tab (s : String) :
    lineFields (s ++ "\t\n") = lineFields (s ++ "\n") := by
  have h1 : rustTrimList (s.data ++ ['\t', '\n']) = rustTrimList s.data := by
    rw [show s.data ++ ['\t', '\n'] = (s.data ++ ['\t']) ++ ['\n'] by simp,
      rustTrimList_append_ws _ '\n' (by decide), rustTrimList_append_ws _ '\t' (by decide)]
  have h2 : rustTrimList (s.data ++ ['\n']) = rustTrimList s.data :=
    rustTrimList_append_ws _ '\n' (by decide)
  show (splitTabList (rustTrimList (s ++ "\t\n").data)).map _ =
    (splitTabList (rustTrimList (s ++ "\n").data)).map _
  rw [show (s ++ "\t\n").data = s.data ++ ['\t', '\n'] from rfl,
    show (s ++ "\n").data = s.data ++ ['\n'] from rfl, h1, h2]

lemma rustTrimList_spec (l : List Char) :
    ∃ pre post, l = pre ++ rustTrimList l ++ post ∧
      pre.all isRustWhitespace = true ∧ post.all isRustWhitespace = true := by
  refine ⟨l.takeWhile isRustWhitespace,
    ((l.dropWhile isRustWhitespace).reverse.takeWhile isRustWhitespace).reverse, ?_, ?_, ?_⟩
  · have key : ∀ m : List Char,
        m = (m.reverse.dropWhile isRustWhitespace).reverse ++
          (m.reverse.takeWhile isRustWhitespace).reverse := by
      intro m
      conv_lhs => rw [← List.reverse_reverse m,
        ← List.takeWhile_append_dropWhile isRustWhitespace m.reverse]
      rw [List.reverse_append]
    conv_lhs => rw [← List.takeWhile_append_dropWhile isRustWhitespace l]
    rw [List.append_assoc]
    exact congrArg _ (key (l.dropWhile isRustWhitespace))
  · rw [List.all_eq_true]
    intro x hx
    exact List.mem_takeWhile_imp hx
  · rw [List.all_eq_true]
    intro x hx
    exact List.mem_takeWhile_imp (List.mem_reverse.mp hx)

/-- Claim C8, counterexample to the claim as stated.  The claim predicts that
a line ending in a tab before its terminator splits with a trailing empty
field; in fact `trim` removes the trailing tab together with the newline, so
the last field of `chrom1\t10\t20\tnameA\t5.0\t\n` is `5.0`, not the empty
string. -/
theorem c8_counterexample :
    lineFields "chrom1\t10\t20\tnameA\t5.0\t\n" = ["chrom1", "10", "20", "nameA", "5.0"] ∧
      (lineFields "chrom1\t10\t20\tnameA\t5.0\t\n").getLast? ≠ some "" := by decide

/-- Claim C8 (amended): the parser trims all leading and trailing whitespace —
not merely the line terminator — and then splits on tab: every line is some
all-whitespace prefix, then the trimmed core that is split, then an
all-whitespace suffix; consequently a tab immediately before the terminator is
removed and contributes no trailing empty field (whitespace strictly inside
the trimmed core is preserved by the split, which only breaks at tabs). -/
theorem c8_trim_all_whitespace_then_split (s : String) :
    (∃ pre post, s.data = pre ++ (rustTrim s).data ++ post ∧
      pre.all isRustWhitespace = true ∧ post.all isRustWhitespace = true) ∧
    lineFields (s ++ "\t\n") = lineFields (s ++ "\n") :=
  ⟨rustTrimList_spec s.data, lineFields_append_tab s⟩
